import Mathlib

/-!
Verification of the pacing engine of `copilot-pacer` (src/extension.ts).

The numeric domain of the TypeScript source is JavaScript numbers used as
exact arithmetic on small values; we embed them as rationals (`ℚ`).
JavaScript strings of block characters are embedded as `List Char`.
`Math.round` rounds half toward positive infinity, i.e. `⌊x + 1/2⌋`.

`calculatePacing` in the source takes only `(usedRequests, monthlyLimit)` and
reads the current day and the number of days in the month from `new Date()`
(lines 197–199).  We make that ambient clock reading an explicit `JSDate`
argument, so the dependence of the result on the wall clock is visible in the
embedding.
-/

/-- JavaScript `Math.round`: round half toward positive infinity. -/
def jsRound (x : ℚ) : ℤ := ⌊x + 1 / 2⌋

/-- The clock reading `calculatePacing` performs internally via `new Date()`:
`currentDay = now.getDate()` and `daysInMonth` of the current month. -/
structure JSDate where
  currentDay : ℤ
  daysInMonth : ℤ
deriving DecidableEq, Repr

/-- Output record of `calculatePacing` (interface `PacingResult`). -/
structure PacingResult where
  progressBar : List Char
  buffer : ℚ
  usedRequests : ℚ
  monthlyLimit : ℚ
deriving DecidableEq, Repr

/-- `renderBlock(width, fillRatio, fillChar, emptyChar)` from extension.ts
lines 179–188: empty for `width <= 0`, otherwise
`round(max(0, min(width, fillRatio * width)))` fill characters followed by
the complement of empty characters. -/
def renderBlock (width : ℤ) ( fillRatio : ℚ) (fillChar emptyChar : Char) :
    List Char :=
  if width ≤ 0 then []
  else
    let filled := jsRound (max 0 (min (width : ℚ) ( fillRatio * width)))
    List.replicate filled.toNat fillChar
      ++ List.replicate (width - filled).toNat emptyChar

/-- `dailyBudget = monthlyLimit / daysInMonth` (line 215). -/
def dailyBudget (monthlyLimit : ℚ) (daysInMonth : ℤ) : ℚ :=
  monthlyLimit / (daysInMonth : ℚ)

/-- `startOfTodayQuota = pastDays * dailyBudget` with
`pastDays = currentDay - 1` (lines 204, 216). -/
def startOfTodayQuota (monthlyLimit : ℚ) (currentDay daysInMonth : ℤ) : ℚ :=
  ((currentDay - 1 : ℤ) : ℚ) * dailyBudget monthlyLimit daysInMonth

/-- `endOfTodayQuota = currentDay * dailyBudget` (line 217). -/
def endOfTodayQuota (monthlyLimit : ℚ) (currentDay daysInMonth : ℤ) : ℚ :=
  (currentDay : ℚ) * dailyBudget monthlyLimit daysInMonth

/-- `futureQuota = monthlyLimit - endOfTodayQuota` (line 232). -/
def futureQuota (monthlyLimit : ℚ) (currentDay daysInMonth : ℤ) : ℚ :=
  monthlyLimit - endOfTodayQuota monthlyLimit currentDay daysInMonth

/-- `pastChars` (lines 208–211): `0` when `totalOutsideDays == 0`, otherwise
`Math.round((pastDays / totalOutsideDays) * OUTSIDE_WIDTH)` with
`OUTSIDE_WIDTH = 12`. -/
def pastChars (currentDay daysInMonth : ℤ) : ℤ :=
  if daysInMonth - 1 = 0 then 0
  else jsRound ((((currentDay - 1 : ℤ) : ℚ) / ((daysInMonth - 1 : ℤ) : ℚ)) * 12)

/-- `futureChars = OUTSIDE_WIDTH - pastChars` (line 212). -/
def futureChars (currentDay daysInMonth : ℤ) : ℤ :=
  12 - pastChars currentDay daysInMonth

/-- The zone-selection conditional of `calculatePacing` (lines 219–235),
returning `(pastRatio, lensRatio, futureRatio)`. -/
def zoneFillRatios (usedRequests monthlyLimit : ℚ) (currentDay daysInMonth : ℤ) :
    ℚ × ℚ × ℚ :=
  if usedRequests < startOfTodayQuota monthlyLimit currentDay daysInMonth then
    (if startOfTodayQuota monthlyLimit currentDay daysInMonth = 0 then 0
     else usedRequests / startOfTodayQuota monthlyLimit currentDay daysInMonth,
     0, 0)
  else if usedRequests ≤ endOfTodayQuota monthlyLimit currentDay daysInMonth then
    (1,
     (usedRequests - startOfTodayQuota monthlyLimit currentDay daysInMonth) /
       dailyBudget monthlyLimit daysInMonth,
     0)
  else
    (1, 1,
     if futureQuota monthlyLimit currentDay daysInMonth = 0 then 1
     else (usedRequests - endOfTodayQuota monthlyLimit currentDay daysInMonth) /
       futureQuota monthlyLimit currentDay daysInMonth)

/-- `calculatePacing(usedRequests, monthlyLimit)` (lines 196–247).  The
`JSDate` argument is the internal `new Date()` reading; `LENS_INNER_WIDTH = 5`
and the lens is framed by one `'┃'` delimiter on each side (line 238). -/
def calculatePacing (usedRequests monthlyLimit : ℚ) (now : JSDate) :
    PacingResult :=
  let currentDay := now.currentDay
  let daysInMonth := now.daysInMonth
  let r := zoneFillRatios usedRequests monthlyLimit currentDay daysInMonth
  let pastStr := renderBlock (pastChars currentDay daysInMonth) r.1 '▰' '▱'
  let lensStr := '┃' :: (renderBlock 5 r.2.1 '▮' '▯' ++ ['┃'])
  let futureStr := renderBlock (futureChars currentDay daysInMonth) r.2.2 '▰' '▱'
  { progressBar := pastStr ++ lensStr ++ futureStr
    buffer := endOfTodayQuota monthlyLimit currentDay daysInMonth - usedRequests
    usedRequests := usedRequests
    monthlyLimit := monthlyLimit }

/-- Modelled from the spec: `renderBlock` as §4.1 words it, with the ratio
clamped into `[0,1]` before scaling
(`filledCount = round(clamp(ratio, 0, 1) * width)`), for comparison with the
source's `round(max(0, min(width, ratio * width)))`. -/
def renderBlockSpecified (width : ℤ) (r : ℚ) (fillChar emptyChar : Char) :
    List Char :=
  let filledCount := jsRound (max 0 (min 1 r) * width)
  List.replicate filledCount.toNat fillChar
    ++ List.replicate (width - filledCount).toNat emptyChar

-- ---------------------------------------------------------------------------
-- Helper lemmas
-- ---------------------------------------------------------------------------

lemma jsRound_nonneg {x : ℚ} (hx : 0 ≤ x) : 0 ≤ jsRound x := by
  unfold jsRound
  rw [Int.floor_nonneg]
  linarith

lemma jsRound_le {x : ℚ} {n : ℤ} (hx : x ≤ (n : ℚ)) : jsRound x ≤ n := by
  have h : jsRound x < n + 1 := by
    unfold jsRound
    rw [Int.floor_lt]
    push_cast
    linarith
  omega

/-- The filled count of `renderBlock` lies in `[0, width]` when `0 < width`. -/
lemma renderBlock_filled_bounds (width : ℤ) (r : ℚ) (hw : 0 < width) :
    0 ≤ jsRound (max 0 (min (width : ℚ) (r * width))) ∧
      jsRound (max 0 (min (width : ℚ) (r * width))) ≤ width := by
  constructor
  · exact jsRound_nonneg (le_max_left 0 _)
  · apply jsRound_le
    apply max_le
    · exact_mod_cast hw.le
    · exact min_le_left _ _

/-- `renderBlock` emits exactly `width` characters for every non-negative
width and every ratio. -/
lemma renderBlock_length (width : ℤ) (r : ℚ) (f e : Char) (hw : 0 ≤ width) :
    (renderBlock width r f e).length = width.toNat := by
  unfold renderBlock
  rcases lt_or_eq_of_le hw with h | h
  · rw [if_neg (by omega)]
    obtain ⟨h0, h1⟩ := renderBlock_filled_bounds width r h
    simp only [List.length_append, List.length_replicate]
    omega
  · rw [if_pos (by omega)]
    simp [← h]

/-- Bounds for `pastChars` on valid calendar inputs. -/
lemma pastChars_bounds (currentDay daysInMonth : ℤ) (hdim : 1 ≤ daysInMonth)
    (hd1 : 1 ≤ currentDay) (hd2 : currentDay ≤ daysInMonth) :
    0 ≤ pastChars currentDay daysInMonth ∧
      pastChars currentDay daysInMonth ≤ 12 := by
  unfold pastChars
  split
  · omega
  · rename_i hne
    have hpos : (0 : ℚ) < ((daysInMonth - 1 : ℤ) : ℚ) := by
      have : 1 ≤ daysInMonth - 1 := by omega
      exact_mod_cast this
    have hratio0 : (0 : ℚ) ≤ ((currentDay - 1 : ℤ) : ℚ) / ((daysInMonth - 1 : ℤ) : ℚ) := by
      apply div_nonneg _ hpos.le
      have : (0 : ℤ) ≤ currentDay - 1 := by omega
      exact_mod_cast this
    have hratio1 : ((currentDay - 1 : ℤ) : ℚ) / ((daysInMonth - 1 : ℤ) : ℚ) ≤ 1 := by
      rw [div_le_one hpos]
      have : currentDay - 1 ≤ daysInMonth - 1 := by omega
      exact_mod_cast this
    push_cast at hratio0 hratio1
    constructor
    · exact jsRound_nonneg (by push_cast; nlinarith)
    · apply jsRound_le
      push_cast
      nlinarith

/-- On valid inputs the daily budget is positive. -/
lemma dailyBudget_pos (monthlyLimit : ℚ) (daysInMonth : ℤ)
    (hm : 0 < monthlyLimit) (hdim : 1 ≤ daysInMonth) :
    0 < dailyBudget monthlyLimit daysInMonth := by
  unfold dailyBudget
  apply div_pos hm
  exact_mod_cast (by omega : (0 : ℤ) < daysInMonth)

lemma startOfTodayQuota_le_endOfTodayQuota (monthlyLimit : ℚ)
    (currentDay daysInMonth : ℤ) (hdb : 0 ≤ dailyBudget monthlyLimit daysInMonth) :
    startOfTodayQuota monthlyLimit currentDay daysInMonth ≤
      endOfTodayQuota monthlyLimit currentDay daysInMonth := by
  unfold startOfTodayQuota endOfTodayQuota
  have h : ((currentDay - 1 : ℤ) : ℚ) ≤ (currentDay : ℚ) := by
    push_cast
    linarith
  exact mul_le_mul_of_nonneg_right h hdb

-- ---------------------------------------------------------------------------
-- Claim theorems
-- ---------------------------------------------------------------------------

/-- C1: for every usedUnits, monthlyLimit > 0, daysInMonth ≥ 1 and
1 ≤ currentDay ≤ daysInMonth, the progress bar produced by `calculatePacing`
has exactly 19 characters (12 outside + 5 lens + 2 delimiters), independent
of usedUnits and of the day of the month. -/
theorem progressBar_length_eq_19 (u m : ℚ) (d dim : ℤ)
    (hm : 0 < m) (hdim : 1 ≤ dim) (hd1 : 1 ≤ d) (hd2 : d ≤ dim) :
    (calculatePacing u m ⟨d, dim⟩).progressBar.length = 19 := by
  obtain ⟨hp0, hp12⟩ := pastChars_bounds d dim hdim hd1 hd2
  have h12 : futureChars d dim = 12 - pastChars d dim := rfl
  have hf0 : 0 ≤ futureChars d dim := by omega
  simp only [calculatePacing, List.length_append, List.length_cons,
    List.length_singleton, List.length_nil]
  rw [renderBlock_length _ _ _ _ hp0, renderBlock_length _ _ _ _ (by norm_num),
    renderBlock_length _ _ _ _ hf0]
  omega

/-- C1 witness. -/
theorem progressBar_length_eq_19_witness :
    (calculatePacing 140 300 ⟨15, 30⟩).progressBar.length = 19 :=
  progressBar_length_eq_19 140 300 15 30 (by norm_num) (by norm_num)
    (by norm_num) (by norm_num)

/-- C2: the buffer returned by `calculatePacing` equals
`endOfTodayQuota - usedUnits` with
`endOfTodayQuota = currentDay * (monthlyLimit / daysInMonth)`, and with the
calendar and limit fixed it is strictly decreasing in usedUnits. -/
theorem buffer_eq_and_strict_anti (u m : ℚ) (now : JSDate) :
    (calculatePacing u m now).buffer
        = (now.currentDay : ℚ) * (m / (now.daysInMonth : ℚ)) - u ∧
      ∀ u1 u2 : ℚ, u1 < u2 →
        (calculatePacing u2 m now).buffer < (calculatePacing u1 m now).buffer := by
  constructor
  · rfl
  · intro u1 u2 h
    show endOfTodayQuota m now.currentDay now.daysInMonth - u2
        < endOfTodayQuota m now.currentDay now.daysInMonth - u1
    linarith

/-- C2 witness: Scenario A/B of the spec (day 15 of 30, limit 300). -/
theorem buffer_eq_and_strict_anti_witness :
    (calculatePacing 140 300 ⟨15, 30⟩).buffer
        = ((15 : ℤ) : ℚ) * (300 / ((30 : ℤ) : ℚ)) - 140 ∧
      (calculatePacing 160 300 ⟨15, 30⟩).buffer
        < (calculatePacing 140 300 ⟨15, 30⟩).buffer :=
  ⟨(buffer_eq_and_strict_anti 140 300 ⟨15, 30⟩).1,
   (buffer_eq_and_strict_anti 140 300 ⟨15, 30⟩).2 140 160 (by norm_num)⟩

/-- C6: for every width ≥ 0, `renderBlock` agrees with the spec's wording —
`round(clamp(ratio, 0, 1) * width)` fill characters followed by the
complement of empty characters — and width 0 yields the empty string. -/
theorem renderBlock_eq_renderBlockSpecified (w : ℤ) (r : ℚ) (f e : Char)
    (hw : 0 ≤ w) :
    renderBlock w r f e = renderBlockSpecified w r f e ∧
      renderBlock 0 r f e = [] := by
  have h0 : ∀ s : ℚ, renderBlock 0 s f e = [] := by
    intro s
    simp [renderBlock]
  refine ⟨?_, h0 r⟩
  rcases eq_or_lt_of_le hw with h | h
  · rw [← h, h0 r]
    have hj : jsRound (0 : ℚ) = 0 := by
      show ⌊(0 : ℚ) + 1 / 2⌋ = 0
      rw [Int.floor_eq_iff]
      norm_num
    simp [renderBlockSpecified, hj]
  · have hw' : (0 : ℚ) ≤ (w : ℚ) := by exact_mod_cast h.le
    have hkey : max 0 (min 1 r) * (w : ℚ) = max 0 (min (w : ℚ) (r * w)) := by
      rw [max_mul_of_nonneg _ _ hw', min_mul_of_nonneg _ _ hw', zero_mul, one_mul]
    simp only [renderBlock, renderBlockSpecified, if_neg (not_le.mpr h), hkey]

/-- C6 witness. -/
theorem renderBlock_eq_renderBlockSpecified_witness :
    renderBlock 5 (7 / 10) 'a' 'b' = renderBlockSpecified 5 (7 / 10) 'a' 'b' ∧
      renderBlock 0 (7 / 10) 'a' 'b' = [] :=
  renderBlock_eq_renderBlockSpecified 5 (7 / 10) 'a' 'b' (by norm_num)

/-- C10: `renderBlock` is total over all integer widths and all rational
ratios: every width ≤ 0 gives the empty string, and every width > 0 gives a
block of clamped fill characters followed by empty characters whose repeat
counts are non-negative and whose total length is exactly the width, for
every ratio. -/
theorem renderBlock_total (w : ℤ) (r : ℚ) (f e : Char) :
    (w ≤ 0 → renderBlock w r f e = []) ∧
    (0 < w → ∃ n : ℕ, n ≤ w.toNat ∧
      renderBlock w r f e
          = List.replicate n f ++ List.replicate (w.toNat - n) e ∧
      (renderBlock w r f e).length = w.toNat) := by
  constructor
  · intro h
    simp [renderBlock, if_pos h]
  · intro h
    obtain ⟨h0, h1⟩ := renderBlock_filled_bounds w r h
    have hrb : renderBlock w r f e =
        List.replicate (jsRound (max 0 (min (w : ℚ) (r * w)))).toNat f ++
          List.replicate
            (w.toNat - (jsRound (max 0 (min (w : ℚ) (r * w)))).toNat) e := by
      simp only [renderBlock, if_neg (not_le.mpr h)]
      have hc : (w - jsRound (max 0 (min (w : ℚ) (r * w)))).toNat
          = w.toNat - (jsRound (max 0 (min (w : ℚ) (r * w)))).toNat := by omega
      rw [hc]
    exact ⟨_, by omega, hrb, renderBlock_length w r f e h.le⟩

/-- C10 witness: a negative width and a positive width. -/
theorem renderBlock_total_witness :
    renderBlock (-3) (7 / 10) 'a' 'b' = [] ∧
    ∃ n : ℕ, n ≤ (4 : ℤ).toNat ∧
      renderBlock 4 (7 / 10) 'a' 'b'
          = List.replicate n 'a' ++ List.replicate ((4 : ℤ).toNat - n) 'b' ∧
      (renderBlock 4 (7 / 10) 'a' 'b').length = (4 : ℤ).toNat :=
  ⟨(renderBlock_total (-3) (7 / 10) 'a' 'b').1 (by norm_num),
   (renderBlock_total 4 (7 / 10) 'a' 'b').2 (by norm_num)⟩

/-- C3: when usedUnits equals `endOfTodayQuota` exactly (with
monthlyLimit > 0, daysInMonth ≥ 1, 1 ≤ currentDay ≤ daysInMonth), zone
selection lands in the on-track zone 2, not the overspend zone 3: the ratios
are pastRatio = 1, lensRatio = 1, futureRatio = 0, so the zone-2/zone-3
boundary is inclusive on the upper side of zone 2. -/
theorem zoneFillRatios_at_boundary (m : ℚ) (d dim : ℤ)
    (hm : 0 < m) (hdim : 1 ≤ dim) (hd1 : 1 ≤ d) (hd2 : d ≤ dim) :
    zoneFillRatios (endOfTodayQuota m d dim) m d dim = (1, 1, 0) := by
  have hdb := dailyBudget_pos m dim hm hdim
  have hle : startOfTodayQuota m d dim ≤ endOfTodayQuota m d dim :=
    startOfTodayQuota_le_endOfTodayQuota m d dim hdb.le
  unfold zoneFillRatios
  rw [if_neg (not_lt.mpr hle), if_pos le_rfl]
  have hdiff : endOfTodayQuota m d dim - startOfTodayQuota m d dim
      = dailyBudget m dim := by
    unfold startOfTodayQuota endOfTodayQuota
    push_cast
    ring
  rw [hdiff, div_self hdb.ne']

/-- C3 witness: Scenario A month at the exact boundary (usedUnits = 150). -/
theorem zoneFillRatios_at_boundary_witness :
    zoneFillRatios (endOfTodayQuota 300 15 30) 300 15 30 = (1, 1, 0) :=
  zoneFillRatios_at_boundary 300 15 30 (by norm_num) (by norm_num)
    (by norm_num) (by norm_num)

/-- C4: when usedUnits exceeds `endOfTodayQuota`, zone selection sets
pastRatio = 1, lensRatio = 1, and futureRatio =
(usedUnits - endOfTodayQuota) / futureQuota, except that futureRatio = 1
when futureQuota = 0, so the overspend branch is total. -/
theorem zoneFillRatios_overspend (u m : ℚ) (d dim : ℤ)
    (hm : 0 < m) (hdim : 1 ≤ dim) (hd1 : 1 ≤ d) (hd2 : d ≤ dim)
    (hover : endOfTodayQuota m d dim < u) :
    (zoneFillRatios u m d dim).1 = 1 ∧
    (zoneFillRatios u m d dim).2.1 = 1 ∧
    (futureQuota m d dim = 0 → (zoneFillRatios u m d dim).2.2 = 1) ∧
    (futureQuota m d dim ≠ 0 →
      (zoneFillRatios u m d dim).2.2
        = (u - endOfTodayQuota m d dim) / futureQuota m d dim) := by
  have hdb := dailyBudget_pos m dim hm hdim
  have hle := startOfTodayQuota_le_endOfTodayQuota m d dim hdb.le
  have h1 : ¬ u < startOfTodayQuota m d dim := not_lt.mpr (hle.trans hover.le)
  have h2 : ¬ u ≤ endOfTodayQuota m d dim := not_le.mpr hover
  unfold zoneFillRatios
  rw [if_neg h1, if_neg h2]
  refine ⟨rfl, rfl, ?_, ?_⟩
  · intro hq
    simp [if_pos hq]
  · intro hq
    simp [if_neg hq]

/-- C4 witness: Scenario B (usedUnits 160 on day 15 of 30, limit 300). -/
theorem zoneFillRatios_overspend_witness :
    (zoneFillRatios 160 300 15 30).1 = 1 ∧
    (zoneFillRatios 160 300 15 30).2.1 = 1 ∧
    (futureQuota 300 15 30 = 0 → (zoneFillRatios 160 300 15 30).2.2 = 1) ∧
    (futureQuota 300 15 30 ≠ 0 →
      (zoneFillRatios 160 300 15 30).2.2
        = (160 - endOfTodayQuota 300 15 30) / futureQuota 300 15 30) :=
  zoneFillRatios_overspend 160 300 15 30 (by norm_num) (by norm_num)
    (by norm_num) (by norm_num)
    (by norm_num [endOfTodayQuota, dailyBudget])

/-- C5: when usedUnits is below `startOfTodayQuota`, zone selection yields
lensRatio = 0, futureRatio = 0 and pastRatio = usedUnits / startOfTodayQuota
guarded to 0 when startOfTodayQuota = 0; and on day 1 (where
startOfTodayQuota = 0) any usedUnits > 0 falls into zone 2 or zone 3, both
of which set pastRatio = 1. -/
theorem zoneFillRatios_aheadOfSchedule (u m : ℚ) (d dim : ℤ) :
    (u < startOfTodayQuota m d dim →
      zoneFillRatios u m d dim =
        ((if startOfTodayQuota m d dim = 0 then 0
          else u / startOfTodayQuota m d dim), 0, 0)) ∧
    (d = 1 → 0 < u → (zoneFillRatios u m d dim).1 = 1) := by
  constructor
  · intro h
    unfold zoneFillRatios
    rw [if_pos h]
  · intro hd hu
    subst hd
    have hs : startOfTodayQuota m 1 dim = 0 := by
      unfold startOfTodayQuota
      simp
    unfold zoneFillRatios
    rw [hs, if_neg (not_lt.mpr hu.le)]
    by_cases h2 : u ≤ endOfTodayQuota m 1 dim
    · rw [if_pos h2]
    · rw [if_neg h2]

/-- C5 witness: under-pace usage on day 15, and usage 5 on day 1. -/
theorem zoneFillRatios_aheadOfSchedule_witness :
    zoneFillRatios 100 300 15 30 =
      ((if startOfTodayQuota 300 15 30 = 0 then 0
        else 100 / startOfTodayQuota 300 15 30), 0, 0) ∧
    (zoneFillRatios 5 300 1 30).1 = 1 :=
  ⟨(zoneFillRatios_aheadOfSchedule 100 300 15 30).1
      (by norm_num [startOfTodayQuota, dailyBudget]),
   (zoneFillRatios_aheadOfSchedule 5 300 1 30).2 rfl (by norm_num)⟩

/-- C7: for daysInMonth ≥ 1 and 1 ≤ currentDay ≤ daysInMonth, pastChars is
`round(((currentDay-1)/(daysInMonth-1)) * 12)` when daysInMonth - 1 > 0 and
0 in the single-day month, and pastChars + futureChars = 12 always. -/
theorem pastChars_add_futureChars (d dim : ℤ) (hdim : 1 ≤ dim)
    (hd1 : 1 ≤ d) (hd2 : d ≤ dim) :
    (0 < dim - 1 →
      pastChars d dim
        = jsRound ((((d - 1 : ℤ) : ℚ) / ((dim - 1 : ℤ) : ℚ)) * 12)) ∧
    (dim - 1 = 0 → pastChars d dim = 0) ∧
    pastChars d dim + futureChars d dim = 12 := by
  refine ⟨?_, ?_, ?_⟩
  · intro h
    unfold pastChars
    rw [if_neg (by omega)]
  · intro h
    unfold pastChars
    rw [if_pos h]
  · unfold futureChars
    omega

/-- C7 witness: day 15 of a 30-day month and the single-day month. -/
theorem pastChars_add_futureChars_witness :
    pastChars 15 30 = jsRound ((((15 - 1 : ℤ) : ℚ) / ((30 - 1 : ℤ) : ℚ)) * 12) ∧
    pastChars 1 1 = 0 ∧
    pastChars 15 30 + futureChars 15 30 = 12 :=
  ⟨(pastChars_add_futureChars 15 30 (by norm_num) (by norm_num)
      (by norm_num)).1 (by norm_num),
   (pastChars_add_futureChars 1 1 (by norm_num) (by norm_num)
      (by norm_num)).2.1 (by norm_num),
   (pastChars_add_futureChars 15 30 (by norm_num) (by norm_num)
      (by norm_num)).2.2⟩

/-- C8 counterexample: at usedUnits = 0, monthlyLimit = 300, on day 30 of a
30-day month (all hypotheses of the claim hold) the buffer is 300 while
monthlyLimit - endOfTodayQuota = 0, so the claimed bound
`buffer ≤ monthlyLimit - endOfTodayQuota` fails. -/
theorem buffer_bound_counterexample :
    (0 : ℚ) ≤ 0 ∧ (0 : ℚ) < 300 ∧ (1 : ℤ) ≤ 30 ∧ (30 : ℤ) ≤ 30 ∧
    ¬ ((calculatePacing 0 300 ⟨30, 30⟩).buffer
        ≤ 300 - endOfTodayQuota 300 30 30) := by
  refine ⟨le_refl 0, by norm_num, by norm_num, le_refl 30, ?_⟩
  have hb : (calculatePacing 0 300 ⟨30, 30⟩).buffer = 300 := by
    show endOfTodayQuota 300 30 30 - 0 = 300
    norm_num [endOfTodayQuota, dailyBudget]
  have he : endOfTodayQuota 300 30 30 = 300 := by
    norm_num [endOfTodayQuota, dailyBudget]
  rw [hb, he]
  norm_num

/-- C8 amended: for usedUnits ≥ 0 the buffer is at most `endOfTodayQuota`
(not `monthlyLimit - endOfTodayQuota`), and it is unbounded below: below any
bound some non-negative usedUnits drives it lower. -/
theorem buffer_le_endOfTodayQuota (m : ℚ) (now : JSDate) :
    (∀ u : ℚ, 0 ≤ u →
      (calculatePacing u m now).buffer
        ≤ endOfTodayQuota m now.currentDay now.daysInMonth) ∧
    (∀ b : ℚ, ∃ u : ℚ, 0 ≤ u ∧ (calculatePacing u m now).buffer < b) := by
  constructor
  · intro u hu
    show endOfTodayQuota m now.currentDay now.daysInMonth - u ≤ _
    linarith
  · intro b
    refine ⟨max 0 (endOfTodayQuota m now.currentDay now.daysInMonth - b + 1),
      le_max_left _ _, ?_⟩
    show endOfTodayQuota m now.currentDay now.daysInMonth - _ < b
    have h := le_max_right 0
      (endOfTodayQuota m now.currentDay now.daysInMonth - b + 1)
    linarith

/-- C8 amended witness. -/
theorem buffer_le_endOfTodayQuota_witness :
    (calculatePacing 0 300 ⟨30, 30⟩).buffer ≤ endOfTodayQuota 300 30 30 ∧
    ∃ u : ℚ, 0 ≤ u ∧ (calculatePacing u 300 ⟨30, 30⟩).buffer < -1000 :=
  ⟨(buffer_le_endOfTodayQuota 300 ⟨30, 30⟩).1 0 (le_refl 0),
   (buffer_le_endOfTodayQuota 300 ⟨30, 30⟩).2 (-1000)⟩

/-- C9 counterexample: with usedUnits = 100 and monthlyLimit = 300 fixed,
two different internal `new Date()` readings give different buffers, so the
output is not a function of (usedUnits, monthlyLimit) alone: the source
reads the calendar from the ambient clock instead of taking it as a caller
argument. -/
theorem calculatePacing_clock_counterexample :
    (calculatePacing 100 300 ⟨1, 31⟩).buffer
      ≠ (calculatePacing 100 300 ⟨15, 31⟩).buffer := by
  show endOfTodayQuota 300 1 31 - 100 ≠ endOfTodayQuota 300 15 31 - 100
  norm_num [endOfTodayQuota, dailyBudget]

/-- C9 amended: `calculatePacing` reads currentDay and daysInMonth
internally from the system clock; as a function of usedUnits, monthlyLimit
and that clock reading it is pure and deterministic — two calls with
identical inputs and identical clock reading return identical results. -/
theorem calculatePacing_deterministic (u1 u2 m1 m2 : ℚ) (now1 now2 : JSDate)
    (hu : u1 = u2) (hm : m1 = m2) (hnow : now1 = now2) :
    calculatePacing u1 m1 now1 = calculatePacing u2 m2 now2 := by
  rw [hu, hm, hnow]

/-- C9 amended witness. -/
theorem calculatePacing_deterministic_witness :
    calculatePacing 140 300 ⟨15, 30⟩ = calculatePacing 140 300 ⟨15, 30⟩ :=
  calculatePacing_deterministic 140 140 300 300 ⟨15, 30⟩ ⟨15, 30⟩ rfl rfl rfl
